import Mathlib

/-!
Formal model of the Tree Render Engine scheduling core of
`src/Engine/TreeRender.cpp`, shallowly embedded in Lean 4.

Frame-view requests (FVRs) are identified by natural numbers.  The
per-execution attributes of a request (remaining dependencies, listeners,
render status) are kept inside the execution state, mirroring the
per-execution keying of the C++ `FrameViewRequest` accessors.  Effects and
nodes are identified by natural numbers as well; the external collaborators
(effect `requestRender` / `launchNodeRender`, the node-group topology, the
settings and context pools) are represented by oracles passed as explicit
arguments.
-/

set_option autoImplicit false

namespace Natron

/-- Modelled from the spec: `ActionRetCodeEnum` status codes (section 6 of
the spec; the enum itself lives outside `src/`).  The spec lists `OK`,
`Failed`, `Aborted`; `isFailureRetCode` treats everything except `OK`
(abort included) as a failure. -/
inductive ActionRetCodeEnum where
  | eActionStatusOK
  | eActionStatusFailed
  | eActionStatusAborted
deriving DecidableEq, Repr

/-- Modelled from the spec: the failure-policy predicate `isFailureRetCode`
(declared outside `src/`): any code other than `OK`, abort included, is a
failure. -/
def isFailureRetCode : ActionRetCodeEnum → Bool
  | ActionRetCodeEnum.eActionStatusOK => false
  | ActionRetCodeEnum.eActionStatusFailed => true
  | ActionRetCodeEnum.eActionStatusAborted => true

/-- Modelled from the spec: the per-request render status
(`FrameViewRequest::getStatus`, declared outside `src/`); the spec data
model gives `status` ∈ \x7bNotRendered, Rendered, Failed, Aborted\x7d. -/
inductive FrameViewRequestStatusEnum where
  | eFrameViewRequestStatusNotRendered
  | eFrameViewRequestStatusRendered
  | eFrameViewRequestStatusFailed
  | eFrameViewRequestStatusAborted
deriving DecidableEq, Repr

/-- State of one `TreeRenderExecutionData` (fields of
`TreeRenderExecutionDataPrivate`), together with the per-execution fields
of the `FrameViewRequest` objects it schedules.  `dependencyFreeRenders`
is the ready set ordered by the pointer-identity comparator
(`FrameViewRequestComparePriority`), modelled as a `Finset ℕ` popped at its
minimum; `dependencyFreeRendersCreated` models whether the
`boost::scoped_ptr` holding it is non-null.  `launchedRunnables` records
the runnables handed to the worker pool, in dispatch order. -/
structure TreeRenderExecutionDataState where
  isMainExecutionOfTree : Bool
  allRenderTasksToProcess : Finset ℕ
  dependencyFreeRendersCreated : Bool
  dependencyFreeRenders : Finset ℕ
  status : ActionRetCodeEnum
  outputRequest : Option ℕ
  launchedRunnables : List ℕ
  deps : ℕ → Finset ℕ
  listeners : ℕ → List ℕ
  reqStatus : ℕ → FrameViewRequestStatusEnum

/-- Modelled from the spec: `FrameViewRequest::getNumDependencies
(execution)` (declared outside `src/`) returns the remaining dependency
count of the request in one execution. -/
def getNumDependencies (s : TreeRenderExecutionDataState) (request : ℕ) : ℕ :=
  (s.deps request).card

/-- Modelled from the spec: `FrameViewRequest::markDependencyAsRendered
(execution, other)` (declared outside `src/`) removes one finished
dependency and returns the new remaining count. -/
def markDependencyAsRendered (s : TreeRenderExecutionDataState) (listener dep : ℕ) :
    TreeRenderExecutionDataState × ℕ :=
  let remaining := (s.deps listener).erase dep
  ({ s with deps := Function.update s.deps listener remaining }, remaining.card)

/-- Modelled from the spec: `FrameViewRequest::getListeners(execution)`
(declared outside `src/`) returns a stable snapshot of the requests that
depend on this one within the execution. -/
def getListeners (s : TreeRenderExecutionDataState) (request : ℕ) : List ℕ :=
  s.listeners request

/-- `TreeRenderExecutionData::getStatus`. -/
def TreeRenderExecutionData.getStatus (s : TreeRenderExecutionDataState) : ActionRetCodeEnum :=
  s.status

/-- `TreeRenderExecutionData::hasTasksToExecute`. -/
def hasTasksToExecute (s : TreeRenderExecutionDataState) : Bool :=
  0 < s.allRenderTasksToProcess.card

/-- `TreeRenderExecutionData::addTaskToRender`: insert the request into
`allRenderTasksToProcess`; if its remaining dependency count is zero,
insert it into `dependencyFreeRenders` as well. -/
def addTaskToRender (s : TreeRenderExecutionDataState) (render : ℕ) :
    TreeRenderExecutionDataState :=
  let s1 := { s with allRenderTasksToProcess := insert render s.allRenderTasksToProcess }
  if getNumDependencies s1 render = 0 then
    { s1 with dependencyFreeRenders := insert render s1.dependencyFreeRenders }
  else
    s1

/-- `TreeRenderExecutionDataPrivate::removeTaskFromGlobalTaskList`: erase
the request from `allRenderTasksToProcess` if it is still there. -/
def removeTaskFromGlobalTaskList (s : TreeRenderExecutionDataState) (request : ℕ) :
    TreeRenderExecutionDataState :=
  { s with allRenderTasksToProcess := s.allRenderTasksToProcess.erase request }

/-- Body of the listener loop of
`TreeRenderExecutionDataPrivate::removeDependencyLinkFromRequest`: mark the
finished `request` as a rendered dependency of `listener` and, if the
listener has no dependency left and is not already in the ready set,
promote it into `dependencyFreeRenders`. -/
def promoteListener (request : ℕ) (s : TreeRenderExecutionDataState) (listener : ℕ) :
    TreeRenderExecutionDataState :=
  let res := markDependencyAsRendered s listener request
  if res.2 = 0 then
    if listener ∈ res.1.dependencyFreeRenders then
      res.1
    else
      { res.1 with dependencyFreeRenders := insert listener res.1.dependencyFreeRenders }
  else
    res.1

/-- `TreeRenderExecutionDataPrivate::removeDependencyLinkFromRequest`: a
no-op when the execution status is already a failure, otherwise walk the
snapshot of the finished request's listeners and promote the ones whose
remaining dependency count reaches zero. -/
def removeDependencyLinkFromRequest (s : TreeRenderExecutionDataState) (request : ℕ) :
    TreeRenderExecutionDataState :=
  if isFailureRetCode s.status then
    s
  else
    (getListeners s request).foldl (promoteListener request) s

/-- `TreeRenderExecutionDataPrivate::onTaskFinished` (state effect on the
execution): promote a failing task status to the execution status, remove
the task from the global task list, then remove the dependency links
(promoting newly ready listeners).  The subsequent call
`render->setResults(request, status)` passes the updated execution status
to the owning tree render and is modelled by `TreeRender.setResults`. -/
def onTaskFinished (s : TreeRenderExecutionDataState) (request : ℕ)
    (requestStatus : ActionRetCodeEnum) : TreeRenderExecutionDataState :=
  let s1 := if isFailureRetCode requestStatus then { s with status := requestStatus } else s
  let s2 := removeTaskFromGlobalTaskList s1 request
  removeDependencyLinkFromRequest s2 request

/-- `FrameViewRenderRunnable::run`: read the execution status; if it is not
a failure, invoke the effect's `launchNodeRender` (external, represented by
the `launch` oracle giving the status it returns for each request); in
either case report completion through `onTaskFinished`. -/
def FrameViewRenderRunnable.run (launch : ℕ → ActionRetCodeEnum)
    (s : TreeRenderExecutionDataState) (request : ℕ) : TreeRenderExecutionDataState :=
  let stat := TreeRenderExecutionData.getStatus s
  let stat2 := if isFailureRetCode stat then stat else launch request
  onTaskFinished s request stat2

/-- Loop of `TreeRenderExecutionData::executeAvailableTasks` as compiled
without `TREE_RENDER_DISABLE_MT`: while the budget allows
(`nTasksRemaining == -1 || nTasksRemaining > 0`) and the ready set is
non-empty, pop the first ready request; if its status is `NotRendered` and
the execution has not failed, hand the runnable to the worker pool and
count it, otherwise run it inline without counting it.  `fuel` bounds the
number of iterations (the C++ loop has no explicit bound). -/
def executeAvailableTasksLoopMT (launch : ℕ → ActionRetCodeEnum) :
    ℕ → TreeRenderExecutionDataState → ℤ → ℕ → TreeRenderExecutionDataState × ℕ
  | 0, s, _, nTasksStarted => (s, nTasksStarted)
  | fuel + 1, s, nTasksRemaining, nTasksStarted =>
    if h : (nTasksRemaining = -1 ∨ 0 < nTasksRemaining) ∧ 0 < s.dependencyFreeRenders.card then
      let request := s.dependencyFreeRenders.min' (Finset.card_pos.mp h.2)
      let s1 := { s with dependencyFreeRenders := s.dependencyFreeRenders.erase request }
      if s1.reqStatus request = FrameViewRequestStatusEnum.eFrameViewRequestStatusNotRendered
          ∧ ¬ isFailureRetCode s1.status then
        let s2 := { s1 with launchedRunnables := s1.launchedRunnables ++ [request] }
        executeAvailableTasksLoopMT launch fuel s2 (nTasksRemaining - 1) (nTasksStarted + 1)
      else
        executeAvailableTasksLoopMT launch fuel (FrameViewRenderRunnable.run launch s1 request)
          nTasksRemaining nTasksStarted
    else
      (s, nTasksStarted)

/-- `TreeRenderExecutionData::executeAvailableTasks` (multi-threaded
build): returns 0 when the ready set was never created, otherwise runs the
dispatch loop and returns the number of asynchronous tasks started. -/
def executeAvailableTasksMT (launch : ℕ → ActionRetCodeEnum) (fuel : ℕ)
    (s : TreeRenderExecutionDataState) (nTasks : ℤ) : TreeRenderExecutionDataState × ℕ :=
  if s.dependencyFreeRendersCreated then
    executeAvailableTasksLoopMT launch fuel s nTasks 0
  else
    (s, 0)

/-- Loop of `TreeRenderExecutionData::executeAvailableTasks` as compiled
with `TREE_RENDER_DISABLE_MT`: every popped ready request is run inline;
neither `nTasksRemaining` nor `nTasksStarted` is ever changed. -/
def executeAvailableTasksLoopNoMT (launch : ℕ → ActionRetCodeEnum) :
    ℕ → TreeRenderExecutionDataState → ℤ → ℕ → TreeRenderExecutionDataState × ℕ
  | 0, s, _, nTasksStarted => (s, nTasksStarted)
  | fuel + 1, s, nTasksRemaining, nTasksStarted =>
    if h : (nTasksRemaining = -1 ∨ 0 < nTasksRemaining) ∧ 0 < s.dependencyFreeRenders.card then
      let request := s.dependencyFreeRenders.min' (Finset.card_pos.mp h.2)
      let s1 := { s with dependencyFreeRenders := s.dependencyFreeRenders.erase request }
      executeAvailableTasksLoopNoMT launch fuel (FrameViewRenderRunnable.run launch s1 request)
        nTasksRemaining nTasksStarted
    else
      (s, nTasksStarted)

/-- `TreeRenderExecutionData::executeAvailableTasks` (build with
`TREE_RENDER_DISABLE_MT` defined). -/
def executeAvailableTasksNoMT (launch : ℕ → ActionRetCodeEnum) (fuel : ℕ)
    (s : TreeRenderExecutionDataState) (nTasks : ℤ) : TreeRenderExecutionDataState × ℕ :=
  if s.dependencyFreeRendersCreated then
    executeAvailableTasksLoopNoMT launch fuel s nTasks 0
  else
    (s, 0)

/-- The integer rectangle `RectI` used for the active-stroke update area. -/
structure RectI where
  x1 : ℤ
  y1 : ℤ
  x2 : ℤ
  y2 : ℤ
deriving DecidableEq, Repr

/-- State of one `TreeRender` (fields of `TreeRenderPrivate` used by the
modelled operations).  `rootNode` is the node of
`ctorArgs->treeRootEffect`; `extraRequestedResults` maps a node either to
`none` (no slot requested), `some none` (slot requested, still empty) or
`some (some r)` (slot filled with request `r`).  `aborted` is the value of
the atomic abort counter and `renderClones` the list of registered render
clones. -/
structure TreeRenderState where
  state : ActionRetCodeEnum
  rootNode : ℕ
  outputRequest : Option ℕ
  extraRequestedResults : ℕ → Option (Option ℕ)
  activeStrokeUpdateArea : RectI
  activeStrokeUpdateAreaSet : Bool
  aborted : ℕ
  renderClones : List ℕ

/-- `TreeRender::isRenderAborted`: the atomic counter is read and compared
against zero. -/
def isRenderAborted (s : TreeRenderState) : Bool :=
  decide (0 < s.aborted)

/-- `TreeRender::setRenderAborted`: fetch-and-add one on the atomic
counter. -/
def setRenderAborted (s : TreeRenderState) : TreeRenderState :=
  { s with aborted := s.aborted + 1 }

/-- `TreeRender::getRotoPaintActiveStrokeUpdateArea`: returns `none` when
the area was never set (the C++ returns `false` and leaves the out
parameter untouched), otherwise the stored area. -/
def getRotoPaintActiveStrokeUpdateArea (s : TreeRenderState) : Option RectI :=
  if s.activeStrokeUpdateAreaSet then some s.activeStrokeUpdateArea else none

/-- `TreeRender::setActiveStrokeUpdateArea`. -/
def setActiveStrokeUpdateArea (s : TreeRenderState) (area : RectI) : TreeRenderState :=
  { s with activeStrokeUpdateArea := area, activeStrokeUpdateAreaSet := true }

/-- `TreeRender::registerRenderClone`. -/
def registerRenderClone (s : TreeRenderState) (holder : ℕ) : TreeRenderState :=
  { s with renderClones := s.renderClones ++ [holder] }

/-- `TreeRender::cleanupRenderClones` (state effect: the registered list is
cleared; asking each main instance to drop its clone is external). -/
def cleanupRenderClones (s : TreeRenderState) : TreeRenderState :=
  { s with renderClones := [] }

/-- `TreeRender::setResults`: a failing status is stored in `state`; a
non-null request whose effect's node is the tree-root node becomes
`outputRequest`, otherwise it fills the node's `extraRequestedResults`
slot when that slot exists and is still empty.  `reqNode` maps a request
to the node of its effect (`request->getEffect()->getNode()`). -/
def TreeRender.setResults (reqNode : ℕ → ℕ) (s : TreeRenderState)
    (request : Option ℕ) (status : ActionRetCodeEnum) : TreeRenderState :=
  let s1 := if isFailureRetCode status then { s with state := status } else s
  match request with
  | none => s1
  | some r =>
    if reqNode r = s1.rootNode then
      { s1 with outputRequest := some r }
    else
      if s1.extraRequestedResults (reqNode r) = some none then
        { s1 with extraRequestedResults :=
            Function.update s1.extraRequestedResults (reqNode r) (some (some r)) }
      else
        s1

/-- One mutating call on a `TreeRender`, used to state history-based
properties of the abort flag and of the active-stroke update area. -/
inductive TreeRenderOp where
  | setResults (request : Option ℕ) (status : ActionRetCodeEnum)
  | setRenderAborted
  | setActiveStrokeUpdateArea (area : RectI)
  | registerRenderClone (holder : ℕ)
  | cleanupRenderClones
deriving DecidableEq, Repr

/-- Interpretation of one `TreeRenderOp` by the corresponding member
function. -/
def applyOp (reqNode : ℕ → ℕ) (s : TreeRenderState) : TreeRenderOp → TreeRenderState
  | TreeRenderOp.setResults request status => TreeRender.setResults reqNode s request status
  | TreeRenderOp.setRenderAborted => setRenderAborted s
  | TreeRenderOp.setActiveStrokeUpdateArea area => setActiveStrokeUpdateArea s area
  | TreeRenderOp.registerRenderClone holder => registerRenderClone s holder
  | TreeRenderOp.cleanupRenderClones => cleanupRenderClones s

/-- A sequence of mutating calls applied in order. -/
def applyOps (reqNode : ℕ → ℕ) (s : TreeRenderState) (ops : List TreeRenderOp) :
    TreeRenderState :=
  ops.foldl (applyOp reqNode) s

/-- An effect instance as far as `TreeRender::create` inspects it: the node
it belongs to and whether it is a `GroupInput` proxy. -/
structure EffectModel where
  node : ℕ
  isGroupInput : Bool
deriving DecidableEq, Repr

/-- The construction arguments (`TreeRender::CtorArgs`) that the modelled
operations inspect.  `planeProvided` models
`ctorArgs->plane.getNumComponents() != 0` and `roiProvided` models
`!ctorArgs->canonicalRoI.isNull()`. -/
structure CtorArgs where
  treeRootEffect : EffectModel
  extraNodesToSample : List ℕ
  planeProvided : Bool
  roiProvided : Bool
deriving DecidableEq, Repr

/-- Modelled from the spec: the node-graph facts consumed by
`TreeRender::create` (the `Node`, `NodeGroup` and `GroupInput` classes live
outside `src/`): the enclosing group of a node, the real input a group
maps a group-input node to, and the effect instance of a node. -/
structure NodeGraphEnv where
  enclosingGroup : ℕ → Option ℕ
  realInputForInput : ℕ → ℕ → Option ℕ
  nodeEffect : ℕ → EffectModel

/-- Modelled from the spec: the outcome of the external planning entry
points called by `createExecutionDataInternal` — the statuses returned by
`getLayersProducedAndNeeded_public` (plane resolution),
`getRegionOfDefinition_public` (RoI resolution) and `requestRender`, the
per-request dependency and listener wiring that `requestRender` builds, the
requests it hands to `addTaskToRender` in discovery order, and the output
request it returns (all of `EffectInstance` lives outside `src/`). -/
structure PlanOracle where
  planeStatus : ActionRetCodeEnum
  rodStatus : ActionRetCodeEnum
  requestStatus : ActionRetCodeEnum
  planDeps : ℕ → Finset ℕ
  planListeners : ℕ → List ℕ
  tasks : List ℕ
  output : ℕ

/-- A `TreeRender` handle as returned by `TreeRender::create`: its private
state and the stored (possibly group-input-rewritten) constructor
arguments. -/
structure TreeRenderModel where
  st : TreeRenderState
  ctorArgs : CtorArgs

/-- The field values set by the `TreeRenderPrivate` constructor. -/
def freshTreeRenderState (rootNode : ℕ) : TreeRenderState :=
  { state := ActionRetCodeEnum.eActionStatusOK
  , rootNode := rootNode
  , outputRequest := none
  , extraRequestedResults := fun _ => none
  , activeStrokeUpdateArea := { x1 := 0, y1 := 0, x2 := 0, y2 := 0 }
  , activeStrokeUpdateAreaSet := false
  , aborted := 0
  , renderClones := [] }

/-- `TreeRenderPrivate::init`: store the constructor arguments and create
one empty `extraRequestedResults` slot per extra node to sample (fetching
the OpenGL contexts and the settings flags has no effect on the modelled
state). -/
def TreeRenderPrivate.init (args : CtorArgs) (s : TreeRenderState) : TreeRenderState :=
  { s with
    rootNode := args.treeRootEffect.node
    extraRequestedResults := fun n =>
      if n ∈ args.extraNodesToSample then some none else none }

/-- `TreeRender::create`: redirect a group-input root to the real input of
the enclosing group (failing when the group or the input is missing), then
run `init`, catching any exception (`initThrows` tells whether `init`
throws for these arguments) into a failed state. -/
def TreeRender.create (env : NodeGraphEnv) (initThrows : Bool) (args0 : CtorArgs) :
    TreeRenderModel :=
  if args0.treeRootEffect.isGroupInput then
    match env.enclosingGroup args0.treeRootEffect.node with
    | none =>
      { st := { freshTreeRenderState args0.treeRootEffect.node with
                  state := ActionRetCodeEnum.eActionStatusFailed }
      , ctorArgs := args0 }
    | some g =>
      match env.realInputForInput g args0.treeRootEffect.node with
      | none =>
        { st := { freshTreeRenderState args0.treeRootEffect.node with
                    state := ActionRetCodeEnum.eActionStatusFailed }
        , ctorArgs := args0 }
      | some realInput =>
        let args1 := { args0 with treeRootEffect := env.nodeEffect realInput }
        if initThrows then
          { st := { freshTreeRenderState args1.treeRootEffect.node with
                      state := ActionRetCodeEnum.eActionStatusFailed }
          , ctorArgs := args1 }
        else
          { st := TreeRenderPrivate.init args1 (freshTreeRenderState args1.treeRootEffect.node)
          , ctorArgs := args1 }
  else
    if initThrows then
      { st := { freshTreeRenderState args0.treeRootEffect.node with
                  state := ActionRetCodeEnum.eActionStatusFailed }
      , ctorArgs := args0 }
    else
      { st := TreeRenderPrivate.init args0 (freshTreeRenderState args0.treeRootEffect.node)
      , ctorArgs := args0 }

/-- The field values set by the `TreeRenderExecutionDataPrivate`
constructor (the dependency and listener wiring lives in the ambient
`FrameViewRequest` objects, so it is taken from the planning oracle). -/
def freshExecState (plan : PlanOracle) : TreeRenderExecutionDataState :=
  { isMainExecutionOfTree := false
  , allRenderTasksToProcess := ∅
  , dependencyFreeRendersCreated := false
  , dependencyFreeRenders := ∅
  , status := ActionRetCodeEnum.eActionStatusOK
  , outputRequest := none
  , launchedRunnables := []
  , deps := plan.planDeps
  , listeners := plan.planListeners
  , reqStatus := fun _ => FrameViewRequestStatusEnum.eFrameViewRequestStatusNotRendered }

/-- Tail of `TreeRenderPrivate::createExecutionDataInternal`: create the
ready set, run the `requestRender` planning pass (which calls
`addTaskToRender` on each discovered request and returns a status and the
output request), and mark the execution failed when planning left no
dependency-free request. -/
def runPlanningPass (rd : TreeRenderExecutionDataState) (plan : PlanOracle) :
    TreeRenderExecutionDataState :=
  let rd3 := { rd with dependencyFreeRendersCreated := true }
  let rd4 := plan.tasks.foldl addTaskToRender rd3
  let rd5 := { rd4 with status := plan.requestStatus, outputRequest := some plan.output }
  if isFailureRetCode rd5.status then
    rd5
  else
    if rd5.dependencyFreeRenders.card = 0 then
      { rd5 with status := ActionRetCodeEnum.eActionStatusFailed }
    else
      rd5

/-- `TreeRenderPrivate::createExecutionDataInternal`: short-circuit on a
failed tree-render state; otherwise resolve the plane and the RoI when not
provided (failing statuses abort), then run the planning pass. -/
def createExecutionDataInternal (isMainExecution : Bool)
    (treeState : ActionRetCodeEnum) (planeProvided roiProvided : Bool)
    (plan : PlanOracle) : TreeRenderExecutionDataState :=
  let rd0 := { freshExecState plan with isMainExecutionOfTree := isMainExecution }
  if isFailureRetCode treeState then
    rd0
  else
    let rd1 := if planeProvided then rd0 else { rd0 with status := plan.planeStatus }
    if isFailureRetCode rd1.status then
      rd1
    else
      let rd2 := if roiProvided then rd1 else { rd1 with status := plan.rodStatus }
      if isFailureRetCode rd2.status then
        rd2
      else
        runPlanningPass rd2 plan

/-- `TreeRender::createMainExecutionData`: plan with the stored tree-root
effect and the stored plane/RoI availability.  The planning oracle is a
function of the root effect handed to `requestRender`. -/
def createMainExecutionData (tr : TreeRenderModel) (plan : EffectModel → PlanOracle) :
    TreeRenderExecutionDataState :=
  createExecutionDataInternal true tr.st.state tr.ctorArgs.planeProvided
    tr.ctorArgs.roiProvided (plan tr.ctorArgs.treeRootEffect)

/-- `TreeRender::createSubExecutionData`: plan with an overridden tree
root. -/
def createSubExecutionData (tr : TreeRenderModel) (treeRoot : EffectModel)
    (planeProvided roiProvided : Bool) (plan : EffectModel → PlanOracle) :
    TreeRenderExecutionDataState :=
  createExecutionDataInternal false tr.st.state planeProvided roiProvided (plan treeRoot)

/-- The scheduling invariant of one execution: the ready set is contained
in the full task set and every ready request has remaining dependency
count zero. -/
def execInvariant (s : TreeRenderExecutionDataState) : Prop :=
  s.dependencyFreeRenders ⊆ s.allRenderTasksToProcess ∧
    ∀ r ∈ s.dependencyFreeRenders, getNumDependencies s r = 0

instance (s : TreeRenderExecutionDataState) : Decidable (execInvariant s) := by
  unfold execInvariant
  infer_instance

/-- A small concrete execution: two independent requests, both ready. -/
def exampleExecTwoReady : TreeRenderExecutionDataState :=
  { isMainExecutionOfTree := true
  , allRenderTasksToProcess := {1, 2}
  , dependencyFreeRendersCreated := true
  , dependencyFreeRenders := {1, 2}
  , status := ActionRetCodeEnum.eActionStatusOK
  , outputRequest := none
  , launchedRunnables := []
  , deps := fun _ => ∅
  , listeners := fun _ => []
  , reqStatus := fun _ => FrameViewRequestStatusEnum.eFrameViewRequestStatusNotRendered }

/-- A freshly planned empty execution with the ready set created. -/
def exampleExecEmpty : TreeRenderExecutionDataState :=
  { isMainExecutionOfTree := true
  , allRenderTasksToProcess := ∅
  , dependencyFreeRendersCreated := true
  , dependencyFreeRenders := ∅
  , status := ActionRetCodeEnum.eActionStatusOK
  , outputRequest := none
  , launchedRunnables := []
  , deps := fun _ => ∅
  , listeners := fun _ => []
  , reqStatus := fun _ => FrameViewRequestStatusEnum.eFrameViewRequestStatusNotRendered }

/-- A concrete execution with a failed status reached through the public
operations: requests 1 and 2 are added as independent tasks, request 1 is
popped and dispatched by `executeAvailableTasks(1)`, and its worker then
reports completion with a `Failed` status. -/
def exampleExecAfterFailure : TreeRenderExecutionDataState :=
  onTaskFinished
    (executeAvailableTasksMT (fun _ => ActionRetCodeEnum.eActionStatusOK) 4
      (addTaskToRender (addTaskToRender exampleExecEmpty 1) 2) 1).1
    1 ActionRetCodeEnum.eActionStatusFailed

/-- A concrete execution with a failed status and both tasks dispatched. -/
def exampleExecBothDispatched : TreeRenderExecutionDataState :=
  (executeAvailableTasksMT (fun _ => ActionRetCodeEnum.eActionStatusOK) 8
    exampleExecTwoReady 2).1

/-- A concrete request-to-node map: request 1 belongs to node 10 (the tree
root below), every other request to node 4. -/
def exampleReqNode : ℕ → ℕ := fun r => if r = 1 then 10 else 4

/-- A concrete tree-render state: root node 10, one still-empty
extra-results slot for node 4. -/
def exampleTreeState : TreeRenderState :=
  { state := ActionRetCodeEnum.eActionStatusOK
  , rootNode := 10
  , outputRequest := none
  , extraRequestedResults := fun n => if n = 4 then some none else none
  , activeStrokeUpdateArea := { x1 := 0, y1 := 0, x2 := 0, y2 := 0 }
  , activeStrokeUpdateAreaSet := false
  , aborted := 0
  , renderClones := [] }

/-- A node graph with no groups. -/
def exampleEnvPlain : NodeGraphEnv :=
  { enclosingGroup := fun _ => none
  , realInputForInput := fun _ _ => none
  , nodeEffect := fun n => { node := n, isGroupInput := false } }

/-- Plain constructor arguments: root effect on node 10, no extras. -/
def exampleArgsPlain : CtorArgs :=
  { treeRootEffect := { node := 10, isGroupInput := false }
  , extraNodesToSample := []
  , planeProvided := true
  , roiProvided := true }

/-- A planning oracle whose single discovered request still has one
pending dependency, so the planning pass yields zero dependency-free
requests. -/
def examplePlanNoReady : EffectModel → PlanOracle := fun _ =>
  { planeStatus := ActionRetCodeEnum.eActionStatusOK
  , rodStatus := ActionRetCodeEnum.eActionStatusOK
  , requestStatus := ActionRetCodeEnum.eActionStatusOK
  , planDeps := fun _ => {0}
  , planListeners := fun _ => []
  , tasks := [1]
  , output := 1 }

/-- A node graph with one group (node 7) that maps its group-input node 5
to the real input node 9. -/
def exampleEnvGroup : NodeGraphEnv :=
  { enclosingGroup := fun n => if n = 5 then some 7 else none
  , realInputForInput := fun g n => if g = 7 ∧ n = 5 then some 9 else none
  , nodeEffect := fun n => { node := n, isGroupInput := false } }

/-- Constructor arguments whose root effect is the group-input proxy on
node 5. -/
def exampleArgsGroupInput : CtorArgs :=
  { treeRootEffect := { node := 5, isGroupInput := true }
  , extraNodesToSample := []
  , planeProvided := true
  , roiProvided := true }

/-- A tree render whose `init` threw, leaving it in the failed state. -/
def exampleFailedTree : TreeRenderModel :=
  TreeRender.create exampleEnvPlain true exampleArgsPlain

end Natron

namespace Natron

theorem promoteListener_allTasks (request : ℕ) (s : TreeRenderExecutionDataState) (l : ℕ) :
    (promoteListener request s l).allRenderTasksToProcess = s.allRenderTasksToProcess := by
  simp only [promoteListener, markDependencyAsRendered]
  split
  · split <;> rfl
  · rfl

theorem update_erase_card_zero (s : TreeRenderExecutionDataState) (l request r : ℕ)
    (hzero : ∀ x ∈ s.dependencyFreeRenders, getNumDependencies s x = 0)
    (hr : r ∈ s.dependencyFreeRenders) :
    (Function.update s.deps l ((s.deps l).erase request) r).card = 0 := by
  rcases eq_or_ne r l with h | h
  · subst h
    rw [Function.update_same]
    have h0 : s.deps r = ∅ := Finset.card_eq_zero.mp (hzero r hr)
    rw [h0]
    simp
  · rw [Function.update_noteq h]
    exact hzero r hr

theorem promoteListener_execInvariant (request l : ℕ) (s : TreeRenderExecutionDataState)
    (hl : l ∈ s.allRenderTasksToProcess) (hinv : execInvariant s) :
    execInvariant (promoteListener request s l) := by
  obtain ⟨hsub, hzero⟩ := hinv
  simp only [promoteListener, markDependencyAsRendered]
  split
  · rename_i hcard
    split
    · exact ⟨hsub, fun r hr => update_erase_card_zero s l request r hzero hr⟩
    · constructor
      · intro r hr
        rcases Finset.mem_insert.mp hr with h | h
        · subst h; exact hl
        · exact hsub h
      · intro r hr
        rcases Finset.mem_insert.mp hr with h | h
        · subst h
          simpa [getNumDependencies, Function.update_same] using hcard
        · exact update_erase_card_zero s l request r hzero h
  · exact ⟨hsub, fun r hr => update_erase_card_zero s l request r hzero hr⟩

theorem foldl_promoteListener_execInvariant (request : ℕ) (L : List ℕ) :
    ∀ s : TreeRenderExecutionDataState,
      (∀ l ∈ L, l ∈ s.allRenderTasksToProcess) → execInvariant s →
      execInvariant (L.foldl (promoteListener request) s) := by
  induction L with
  | nil => intro s _ h; simpa using h
  | cons a t ih =>
    intro s hL hinv
    rw [List.foldl_cons]
    apply ih
    · intro l hl
      rw [promoteListener_allTasks]
      exact hL l (List.mem_cons_of_mem a hl)
    · exact promoteListener_execInvariant request a s (hL a (List.mem_cons_self a t)) hinv

theorem removeDependencyLinkFromRequest_execInvariant (s : TreeRenderExecutionDataState)
    (request : ℕ)
    (hlis : ∀ l ∈ getListeners s request, l ∈ s.allRenderTasksToProcess)
    (hinv : execInvariant s) :
    execInvariant (removeDependencyLinkFromRequest s request) := by
  unfold removeDependencyLinkFromRequest
  split
  · exact hinv
  · exact foldl_promoteListener_execInvariant request (getListeners s request) s hlis hinv

theorem onTaskFinished_execInvariant (s : TreeRenderExecutionDataState) (request : ℕ)
    (stat : ActionRetCodeEnum)
    (hready : request ∉ s.dependencyFreeRenders)
    (hlis : ∀ l ∈ getListeners s request, l ∈ s.allRenderTasksToProcess ∧ l ≠ request)
    (hinv : execInvariant s) :
    execInvariant (onTaskFinished s request stat) := by
  obtain ⟨hsub, hzero⟩ := hinv
  have main : ∀ s' : TreeRenderExecutionDataState,
      s'.dependencyFreeRenders = s.dependencyFreeRenders →
      s'.allRenderTasksToProcess = s.allRenderTasksToProcess →
      s'.deps = s.deps → s'.listeners = s.listeners →
      execInvariant (removeDependencyLinkFromRequest
        (removeTaskFromGlobalTaskList s' request) request) := by
    intro s' h1 h2 h3 h4
    apply removeDependencyLinkFromRequest_execInvariant
    · intro l hl
      have hl' : l ∈ getListeners s request := by
        simpa [getListeners, removeTaskFromGlobalTaskList, h4] using hl
      have hmem := hlis l hl'
      simp only [removeTaskFromGlobalTaskList, Finset.mem_erase]
      exact ⟨hmem.2, by rw [h2]; exact hmem.1⟩
    · constructor
      · intro r hr
        have hr' : r ∈ s.dependencyFreeRenders := by
          simpa [removeTaskFromGlobalTaskList, h1] using hr
        simp only [removeTaskFromGlobalTaskList, Finset.mem_erase]
        exact ⟨ne_of_mem_of_not_mem hr' hready, by rw [h2]; exact hsub hr'⟩
      · intro r hr
        have hr' : r ∈ s.dependencyFreeRenders := by
          simpa [removeTaskFromGlobalTaskList, h1] using hr
        have := hzero r hr'
        simpa [removeTaskFromGlobalTaskList, getNumDependencies, h3] using this
  unfold onTaskFinished
  split
  · exact main _ rfl rfl rfl rfl
  · exact main _ rfl rfl rfl rfl

theorem addTaskToRender_execInvariant (s : TreeRenderExecutionDataState) (render : ℕ)
    (hinv : execInvariant s) :
    execInvariant (addTaskToRender s render) ∧
    render ∈ (addTaskToRender s render).allRenderTasksToProcess ∧
    ((addTaskToRender s render).dependencyFreeRenders =
      if getNumDependencies s render = 0 then insert render s.dependencyFreeRenders
      else s.dependencyFreeRenders) := by
  obtain ⟨hsub, hzero⟩ := hinv
  unfold addTaskToRender
  simp only [getNumDependencies]
  split
  · rename_i hcard
    refine ⟨⟨?_, ?_⟩, ?_, ?_⟩
    · intro r hr
      rcases Finset.mem_insert.mp hr with h | h
      · subst h; exact Finset.mem_insert_self r _
      · exact Finset.mem_insert_of_mem (hsub h)
    · intro r hr
      rcases Finset.mem_insert.mp hr with h | h
      · subst h; simpa [getNumDependencies] using hcard
      · simpa [getNumDependencies] using hzero r h
    · exact Finset.mem_insert_self render _
    · rfl
  · rename_i hcard
    refine ⟨⟨?_, ?_⟩, ?_, ?_⟩
    · intro r hr
      exact Finset.mem_insert_of_mem (hsub hr)
    · intro r hr
      simpa [getNumDependencies] using hzero r hr
    · exact Finset.mem_insert_self render _
    · rfl

/-- C1: for every execution, the ready set `dependencyFreeRenders` is a
subset of the full task set `allRenderTasksToProcess` and every ready
request has remaining dependency count zero; `addTaskToRender` establishes
this (it always inserts into the task set and inserts into the ready set
exactly when `getNumDependencies` is zero), and the listener promotion
performed on task completion (`onTaskFinished`, which removes the finished
task and promotes its zero-count listeners) preserves it, given that the
finished task was already popped from the ready set and that its listeners
are pending tasks distinct from it (the code asserts this membership). -/
theorem execInvariant_addTask_onTaskFinished
    (s t : TreeRenderExecutionDataState) (render request : ℕ) (stat : ActionRetCodeEnum)
    (hs : execInvariant s) (ht : execInvariant t)
    (hready : request ∉ t.dependencyFreeRenders)
    (hlis : ∀ l ∈ getListeners t request, l ∈ t.allRenderTasksToProcess ∧ l ≠ request) :
    execInvariant (addTaskToRender s render) ∧
    render ∈ (addTaskToRender s render).allRenderTasksToProcess ∧
    ((addTaskToRender s render).dependencyFreeRenders =
      if getNumDependencies s render = 0 then insert render s.dependencyFreeRenders
      else s.dependencyFreeRenders) ∧
    execInvariant (onTaskFinished t request stat) :=
  ⟨(addTaskToRender_execInvariant s render hs).1,
   (addTaskToRender_execInvariant s render hs).2.1,
   (addTaskToRender_execInvariant s render hs).2.2,
   onTaskFinished_execInvariant t request stat hready hlis ht⟩

/-- Witness for C1 at a concrete execution. -/
theorem execInvariant_addTask_onTaskFinished_witness :
    execInvariant (addTaskToRender exampleExecTwoReady 3) ∧
    execInvariant (onTaskFinished exampleExecTwoReady 5 ActionRetCodeEnum.eActionStatusOK) :=
  ⟨(execInvariant_addTask_onTaskFinished exampleExecTwoReady exampleExecTwoReady 3 5
      ActionRetCodeEnum.eActionStatusOK (by decide) (by decide) (by decide) (by decide)).1,
   (execInvariant_addTask_onTaskFinished exampleExecTwoReady exampleExecTwoReady 3 5
      ActionRetCodeEnum.eActionStatusOK (by decide) (by decide) (by decide) (by decide)).2.2.2⟩

end Natron

namespace Natron


theorem removeDependencyLinkFromRequest_of_failure (s : TreeRenderExecutionDataState)
    (request : ℕ) (h : isFailureRetCode s.status = true) :
    removeDependencyLinkFromRequest s request = s := by
  unfold removeDependencyLinkFromRequest
  rw [if_pos h]

theorem onTaskFinished_of_failure (s : TreeRenderExecutionDataState) (request : ℕ)
    (stat : ActionRetCodeEnum) (h : isFailureRetCode s.status = true) :
    onTaskFinished s request stat = removeTaskFromGlobalTaskList
      (if isFailureRetCode stat then { s with status := stat } else s) request := by
  unfold onTaskFinished
  split
  · rename_i hstat
    exact removeDependencyLinkFromRequest_of_failure _ _ hstat
  · exact removeDependencyLinkFromRequest_of_failure _ _ h

theorem promoteListener_status (request : ℕ) (s : TreeRenderExecutionDataState) (l : ℕ) :
    (promoteListener request s l).status = s.status := by
  simp only [promoteListener, markDependencyAsRendered]
  split
  · split <;> rfl
  · rfl

theorem foldl_promoteListener_status (request : ℕ) (L : List ℕ) :
    ∀ s : TreeRenderExecutionDataState,
      (L.foldl (promoteListener request) s).status = s.status := by
  induction L with
  | nil => intro s; rfl
  | cons a t ih =>
    intro s
    rw [List.foldl_cons, ih, promoteListener_status]

theorem removeDependencyLinkFromRequest_status (s : TreeRenderExecutionDataState)
    (request : ℕ) :
    (removeDependencyLinkFromRequest s request).status = s.status := by
  unfold removeDependencyLinkFromRequest
  split
  · rfl
  · exact foldl_promoteListener_status request (getListeners s request) s

theorem onTaskFinished_status (s : TreeRenderExecutionDataState) (request : ℕ)
    (stat : ActionRetCodeEnum) :
    (onTaskFinished s request stat).status =
      if isFailureRetCode stat then stat else s.status := by
  unfold onTaskFinished
  split <;> rw [removeDependencyLinkFromRequest_status] <;> rfl

/-- C2: evaluation of the dispatch loop at the failing input.  With two
independent ready `NotRendered` requests and `nTasks == -1`, the
multi-threaded `executeAvailableTasks` dispatches exactly one task (request
1), returns 1 and leaves request 2 in the ready set: after the first
asynchronous dispatch `nTasksRemaining` is decremented from `-1` to `-2`,
so the loop guard `nTasksRemaining == -1 || nTasksRemaining > 0` fails,
although the guard's `-1` case and the comment above the loop intend `-1`
to mean releasing all ready tasks. -/
theorem executeAvailableTasks_neg_one_single_dispatch :
    (executeAvailableTasksMT (fun _ => ActionRetCodeEnum.eActionStatusOK) 8
        exampleExecTwoReady (-1)).2 = 1 ∧
    (executeAvailableTasksMT (fun _ => ActionRetCodeEnum.eActionStatusOK) 8
        exampleExecTwoReady (-1)).1.dependencyFreeRenders = {2} ∧
    (executeAvailableTasksMT (fun _ => ActionRetCodeEnum.eActionStatusOK) 8
        exampleExecTwoReady (-1)).1.launchedRunnables = [1] := by decide

/-- C3 counterexample: an execution reached through the public operations
(two independent tasks added, task 1 dispatched by
`executeAvailableTasks(1)` and finished with `Failed`) whose status is a
failure while its ready set still holds request 2 — so a non-OK status does
not imply an empty ready queue. -/
theorem failed_status_ready_nonempty_cex :
    isFailureRetCode exampleExecAfterFailure.status = true ∧
    exampleExecAfterFailure.dependencyFreeRenders ≠ ∅ := by decide

/-- C3 as amended: once the execution status is a failure it stays a
failure, task completions no longer change the ready set, and
`removeDependencyLinkFromRequest` promotes nothing — but requests already
sitting in the ready set are not removed by the failure. -/
theorem no_promotion_after_failure (s : TreeRenderExecutionDataState) (request : ℕ)
    (stat : ActionRetCodeEnum) (h : isFailureRetCode s.status = true) :
    (onTaskFinished s request stat).dependencyFreeRenders = s.dependencyFreeRenders ∧
    isFailureRetCode (onTaskFinished s request stat).status = true ∧
    removeDependencyLinkFromRequest s request = s := by
  refine ⟨?_, ?_, removeDependencyLinkFromRequest_of_failure s request h⟩
  · rw [onTaskFinished_of_failure s request stat h]
    split <;> rfl
  · rw [onTaskFinished_of_failure s request stat h]
    split
    · rename_i hstat
      exact hstat
    · exact h

/-- Witness for the amended C3 at a concrete failed execution. -/
theorem no_promotion_after_failure_witness :
    (onTaskFinished exampleExecAfterFailure 2
        ActionRetCodeEnum.eActionStatusOK).dependencyFreeRenders
      = exampleExecAfterFailure.dependencyFreeRenders ∧
    isFailureRetCode (onTaskFinished exampleExecAfterFailure 2
        ActionRetCodeEnum.eActionStatusOK).status = true :=
  ⟨(no_promotion_after_failure exampleExecAfterFailure 2
      ActionRetCodeEnum.eActionStatusOK (by decide)).1,
   (no_promotion_after_failure exampleExecAfterFailure 2
      ActionRetCodeEnum.eActionStatusOK (by decide)).2.1⟩

/-- C4 counterexample: request 1 completes with `Aborted` (promoted to the
execution status), then request 2 completes with `Failed`; the execution
status is now `Failed`, not the first failure code `Aborted` — a later
failing completion does overwrite the stored failure. -/
theorem later_failure_overwrites_first_cex :
    (onTaskFinished exampleExecBothDispatched 1
        ActionRetCodeEnum.eActionStatusAborted).status
      = ActionRetCodeEnum.eActionStatusAborted ∧
    (onTaskFinished (onTaskFinished exampleExecBothDispatched 1
        ActionRetCodeEnum.eActionStatusAborted) 2
        ActionRetCodeEnum.eActionStatusFailed).status
      = ActionRetCodeEnum.eActionStatusFailed ∧
    ActionRetCodeEnum.eActionStatusFailed ≠ ActionRetCodeEnum.eActionStatusAborted := by
  decide

/-- C4 as amended: a failing task status is promoted to the execution
status under the execution lock, a successful completion never changes the
stored status, and once the status is a failure it remains a failure
forever; however a later failing completion overwrites the stored code
with its own failure code (last failure wins), so the status need not stay
equal to the first failure code. -/
theorem failure_promotion_sticky (s : TreeRenderExecutionDataState) (request : ℕ)
    (stat : ActionRetCodeEnum) :
    (isFailureRetCode stat = true → (onTaskFinished s request stat).status = stat) ∧
    (isFailureRetCode stat = false → (onTaskFinished s request stat).status = s.status) ∧
    (isFailureRetCode s.status = true →
      isFailureRetCode (onTaskFinished s request stat).status = true) := by
  refine ⟨?_, ?_, ?_⟩
  · intro hf
    rw [onTaskFinished_status, if_pos hf]
  · intro hf
    rw [onTaskFinished_status, if_neg (by simp [hf])]
  · intro hs
    rw [onTaskFinished_status]
    split
    · rename_i hstat
      exact hstat
    · exact hs

/-- Witness for the amended C4 at concrete completions. -/
theorem failure_promotion_sticky_witness :
    (onTaskFinished exampleExecBothDispatched 1
        ActionRetCodeEnum.eActionStatusAborted).status
      = ActionRetCodeEnum.eActionStatusAborted ∧
    (onTaskFinished exampleExecBothDispatched 2
        ActionRetCodeEnum.eActionStatusOK).status
      = exampleExecBothDispatched.status :=
  ⟨(failure_promotion_sticky exampleExecBothDispatched 1
      ActionRetCodeEnum.eActionStatusAborted).1 (by decide),
   (failure_promotion_sticky exampleExecBothDispatched 2
      ActionRetCodeEnum.eActionStatusOK).2.1 (by decide)⟩

end Natron

namespace Natron

theorem executeAvailableTasksLoopNoMT_started (launch : ℕ → ActionRetCodeEnum) :
    ∀ (fuel : ℕ) (s : TreeRenderExecutionDataState) (r : ℤ) (c : ℕ),
      (executeAvailableTasksLoopNoMT launch fuel s r c).2 = c := by
  intro fuel
  induction fuel with
  | zero => intro s r c; rfl
  | succ k ih =>
    intro s r c
    unfold executeAvailableTasksLoopNoMT
    split
    · exact ih _ _ _
    · rfl

theorem executeAvailableTasksLoopNoMT_budget_irrelevant (launch : ℕ → ActionRetCodeEnum) :
    ∀ (fuel : ℕ) (s : TreeRenderExecutionDataState) (r r2 : ℤ) (c : ℕ),
      (r = -1 ∨ 0 < r) → (r2 = -1 ∨ 0 < r2) →
      executeAvailableTasksLoopNoMT launch fuel s r c =
        executeAvailableTasksLoopNoMT launch fuel s r2 c := by
  intro fuel
  induction fuel with
  | zero => intro s r r2 c _ _; rfl
  | succ k ih =>
    intro s r r2 c hr hr2
    unfold executeAvailableTasksLoopNoMT
    by_cases hc : 0 < s.dependencyFreeRenders.card
    · rw [dif_pos (And.intro hr hc), dif_pos (And.intro hr2 hc)]
      exact ih _ r r2 c hr hr2
    · rw [dif_neg (by tauto), dif_neg (by tauto)]

/-- C9 counterexample: on an execution with two independent ready
`NotRendered` requests and `nTasks == 1`, the multi-threaded build
dispatches one task and returns 1, while the `TREE_RENDER_DISABLE_MT`
build runs both ready tasks inline (ignoring the budget) and returns 0 —
the public return value of `executeAvailableTasks` and the set of tasks
worked in the call both differ between the two builds. -/
theorem disable_mt_return_differs_cex :
    (executeAvailableTasksMT (fun _ => ActionRetCodeEnum.eActionStatusOK) 8
        exampleExecTwoReady 1).2 = 1 ∧
    (executeAvailableTasksNoMT (fun _ => ActionRetCodeEnum.eActionStatusOK) 8
        exampleExecTwoReady 1).2 = 0 ∧
    (executeAvailableTasksNoMT (fun _ => ActionRetCodeEnum.eActionStatusOK) 8
        exampleExecTwoReady 1).1.dependencyFreeRenders = ∅ := by decide

/-- C9 as amended: in the `TREE_RENDER_DISABLE_MT` build every popped ready
task runs inline through the same completion path as the multi-threaded
build's inline fast path, but the task budget is never decremented and no
started task is counted, so `executeAvailableTasks` always returns 0 and
behaves identically for every admissible `nTasks`; its return value and
the number of tasks worked within one call therefore differ from the
multi-threaded build. -/
theorem disable_mt_inline_returns_zero (launch : ℕ → ActionRetCodeEnum) (fuel : ℕ)
    (s : TreeRenderExecutionDataState) (n m : ℤ)
    (hn : n = -1 ∨ 0 < n) (hm : m = -1 ∨ 0 < m) :
    (executeAvailableTasksNoMT launch fuel s n).2 = 0 ∧
    executeAvailableTasksNoMT launch fuel s n = executeAvailableTasksNoMT launch fuel s m := by
  constructor
  · unfold executeAvailableTasksNoMT
    split
    · exact executeAvailableTasksLoopNoMT_started launch fuel s n 0
    · rfl
  · unfold executeAvailableTasksNoMT
    split
    · exact executeAvailableTasksLoopNoMT_budget_irrelevant launch fuel s n m 0 hn hm
    · rfl

/-- Witness for the amended C9 at a concrete execution and budgets 1 and
5. -/
theorem disable_mt_inline_returns_zero_witness :
    (executeAvailableTasksNoMT (fun _ => ActionRetCodeEnum.eActionStatusOK) 8
        exampleExecTwoReady 1).2 = 0 ∧
    executeAvailableTasksNoMT (fun _ => ActionRetCodeEnum.eActionStatusOK) 8
        exampleExecTwoReady 1 =
      executeAvailableTasksNoMT (fun _ => ActionRetCodeEnum.eActionStatusOK) 8
        exampleExecTwoReady 5 :=
  disable_mt_inline_returns_zero (fun _ => ActionRetCodeEnum.eActionStatusOK) 8
    exampleExecTwoReady 1 5 (Or.inr (by decide)) (Or.inr (by decide))

end Natron

namespace Natron


theorem setResults_state (reqNode : ℕ → ℕ) (s : TreeRenderState) (request : Option ℕ)
    (status : ActionRetCodeEnum) :
    (TreeRender.setResults reqNode s request status).state =
      if isFailureRetCode status then status else s.state := by
  unfold TreeRender.setResults
  cases request <;> dsimp only <;>
    split <;> first | rfl | (split <;> first | rfl | (split <;> rfl))

theorem setResults_fields (reqNode : ℕ → ℕ) (s : TreeRenderState) (request : Option ℕ)
    (status : ActionRetCodeEnum) :
    (TreeRender.setResults reqNode s request status).aborted = s.aborted ∧
    (TreeRender.setResults reqNode s request status).activeStrokeUpdateArea
      = s.activeStrokeUpdateArea ∧
    (TreeRender.setResults reqNode s request status).activeStrokeUpdateAreaSet
      = s.activeStrokeUpdateAreaSet ∧
    (TreeRender.setResults reqNode s request status).rootNode = s.rootNode ∧
    (TreeRender.setResults reqNode s request status).renderClones = s.renderClones := by
  refine ⟨?_, ?_, ?_, ?_, ?_⟩ <;>
    (unfold TreeRender.setResults
     cases request <;> dsimp only <;>
       split <;> first | rfl | (split <;> first | rfl | (split <;> rfl)))

theorem setResults_output_of_root (reqNode : ℕ → ℕ) (s : TreeRenderState) (r : ℕ)
    (status : ActionRetCodeEnum) (h : reqNode r = s.rootNode) :
    (TreeRender.setResults reqNode s (some r) status).outputRequest = some r := by
  by_cases hF : isFailureRetCode status <;>
    simp [TreeRender.setResults, hF, h]

theorem setResults_fill_empty (reqNode : ℕ → ℕ) (s : TreeRenderState) (r : ℕ)
    (status : ActionRetCodeEnum) (hroot : reqNode r ≠ s.rootNode)
    (hslot : s.extraRequestedResults (reqNode r) = some none) :
    (TreeRender.setResults reqNode s (some r) status).extraRequestedResults (reqNode r)
      = some (some r) := by
  by_cases hF : isFailureRetCode status <;>
    simp [TreeRender.setResults, hF, hroot, hslot]

theorem setResults_extras_of_no_slot (reqNode : ℕ → ℕ) (s : TreeRenderState) (r : ℕ)
    (status : ActionRetCodeEnum)
    (hslot : s.extraRequestedResults (reqNode r) = none) :
    (TreeRender.setResults reqNode s (some r) status).extraRequestedResults
      = s.extraRequestedResults := by
  by_cases hF : isFailureRetCode status <;>
    by_cases hroot : reqNode r = s.rootNode <;>
      simp [TreeRender.setResults, hF, hroot, hslot]

theorem setResults_extras_monotone (reqNode : ℕ → ℕ) (s : TreeRenderState)
    (request : Option ℕ) (status : ActionRetCodeEnum) (n x : ℕ)
    (hx : s.extraRequestedResults n = some (some x)) :
    (TreeRender.setResults reqNode s request status).extraRequestedResults n
      = some (some x) := by
  cases request with
  | none =>
    by_cases hF : isFailureRetCode status <;>
      simp [TreeRender.setResults, hF, hx]
  | some r =>
    by_cases hroot : reqNode r = s.rootNode
    · by_cases hF : isFailureRetCode status <;>
        simp [TreeRender.setResults, hF, hroot, hx]
    · by_cases hslot : s.extraRequestedResults (reqNode r) = some none
      · have hne : n ≠ reqNode r := by
          intro he
          rw [he, hslot] at hx
          simp at hx
        by_cases hF : isFailureRetCode status <;>
          simp [TreeRender.setResults, hF, hroot, hslot, hx, Function.update_noteq hne]
      · by_cases hF : isFailureRetCode status <;>
          simp [TreeRender.setResults, hF, hroot, hslot, hx]

/-- C5: `setResults` stores a failing status into the tree-render state
(leaving it untouched on success); a non-null request whose effect's node
is the tree-root node is stored as `outputRequest`; otherwise, when the
node has a still-empty `extraRequestedResults` slot, the slot is filled
with the request; when the node has no slot the map is unchanged; and a
slot that is already non-empty is never overwritten, so each slot goes
from empty to non-empty at most once. -/
theorem setResults_funnel (reqNode : ℕ → ℕ) (s : TreeRenderState) (request : Option ℕ)
    (r n x : ℕ) (status : ActionRetCodeEnum) :
    (isFailureRetCode status = true →
      (TreeRender.setResults reqNode s request status).state = status) ∧
    (isFailureRetCode status = false →
      (TreeRender.setResults reqNode s request status).state = s.state) ∧
    (request = some r → reqNode r = s.rootNode →
      (TreeRender.setResults reqNode s request status).outputRequest = some r) ∧
    (request = some r → reqNode r ≠ s.rootNode →
      s.extraRequestedResults (reqNode r) = some none →
      (TreeRender.setResults reqNode s request status).extraRequestedResults (reqNode r)
        = some (some r)) ∧
    (request = some r → s.extraRequestedResults (reqNode r) = none →
      (TreeRender.setResults reqNode s request status).extraRequestedResults
        = s.extraRequestedResults) ∧
    (s.extraRequestedResults n = some (some x) →
      (TreeRender.setResults reqNode s request status).extraRequestedResults n
        = some (some x)) := by
  refine ⟨?_, ?_, ?_, ?_, ?_, ?_⟩
  · intro hf
    rw [setResults_state, if_pos hf]
  · intro hf
    rw [setResults_state, if_neg (by simp [hf])]
  · rintro rfl h
    exact setResults_output_of_root reqNode s r status h
  · rintro rfl h1 h2
    exact setResults_fill_empty reqNode s r status h1 h2
  · rintro rfl h
    exact setResults_extras_of_no_slot reqNode s r status h
  · intro h
    exact setResults_extras_monotone reqNode s request status n x h

/-- Witness for C5 at a concrete tree-render state: the root request
becomes the output request, and a non-root request fills the empty slot of
its node. -/
theorem setResults_funnel_witness :
    (TreeRender.setResults exampleReqNode exampleTreeState (some 1)
        ActionRetCodeEnum.eActionStatusOK).outputRequest = some 1 ∧
    (TreeRender.setResults exampleReqNode exampleTreeState (some 2)
        ActionRetCodeEnum.eActionStatusOK).extraRequestedResults 4 = some (some 2) :=
  ⟨(setResults_funnel exampleReqNode exampleTreeState (some 1) 1 0 0
      ActionRetCodeEnum.eActionStatusOK).2.2.1 rfl (by decide),
   (setResults_funnel exampleReqNode exampleTreeState (some 2) 2 0 0
      ActionRetCodeEnum.eActionStatusOK).2.2.2.1 rfl (by decide) (by decide)⟩

end Natron

namespace Natron

theorem applyOp_aborted (reqNode : ℕ → ℕ) (s : TreeRenderState) (op : TreeRenderOp) :
    (applyOp reqNode s op).aborted =
      s.aborted + (if op = TreeRenderOp.setRenderAborted then 1 else 0) := by
  cases op with
  | setResults request status =>
    simp [applyOp, (setResults_fields reqNode s request status).1]
  | setRenderAborted => simp [applyOp, setRenderAborted]
  | setActiveStrokeUpdateArea a => simp [applyOp, setActiveStrokeUpdateArea]
  | registerRenderClone h => simp [applyOp, registerRenderClone]
  | cleanupRenderClones => simp [applyOp, cleanupRenderClones]

theorem applyOps_aborted_of_not_mem (reqNode : ℕ → ℕ) :
    ∀ (ops : List TreeRenderOp) (s : TreeRenderState),
      TreeRenderOp.setRenderAborted ∉ ops →
      (applyOps reqNode s ops).aborted = s.aborted := by
  intro ops
  induction ops with
  | nil => intro s _; rfl
  | cons b t ih =>
    intro s hmem
    have hb : b ≠ TreeRenderOp.setRenderAborted := fun he =>
      hmem (he ▸ List.mem_cons_self b t)
    have h1 : (applyOp reqNode s b).aborted = s.aborted := by
      rw [applyOp_aborted, if_neg hb, Nat.add_zero]
    simp only [applyOps, List.foldl_cons]
    have h2 := ih (applyOp reqNode s b) (fun hm => hmem (List.mem_cons_of_mem b hm))
    simp only [applyOps] at h2
    rw [h2, h1]

theorem applyOps_aborted_le (reqNode : ℕ → ℕ) :
    ∀ (ops : List TreeRenderOp) (s : TreeRenderState),
      s.aborted ≤ (applyOps reqNode s ops).aborted := by
  intro ops
  induction ops with
  | nil => intro s; exact le_refl _
  | cons b t ih =>
    intro s
    simp only [applyOps, List.foldl_cons]
    have h1 : s.aborted ≤ (applyOp reqNode s b).aborted := by
      rw [applyOp_aborted]
      exact Nat.le_add_right _ _
    have h2 := ih (applyOp reqNode s b)
    simp only [applyOps] at h2
    exact h1.trans h2

theorem applyOps_aborted_pos_of_mem (reqNode : ℕ → ℕ) :
    ∀ (ops : List TreeRenderOp) (s : TreeRenderState),
      TreeRenderOp.setRenderAborted ∈ ops →
      0 < (applyOps reqNode s ops).aborted := by
  intro ops
  induction ops with
  | nil => intro s h; cases h
  | cons b t ih =>
    intro s hmem
    simp only [applyOps, List.foldl_cons]
    rcases List.mem_cons.mp hmem with h | h
    · subst h
      have h1 : 0 < (applyOp reqNode s TreeRenderOp.setRenderAborted).aborted := by
        rw [applyOp_aborted, if_pos rfl]
        exact Nat.succ_pos _
      have h2 := applyOps_aborted_le reqNode t
        (applyOp reqNode s TreeRenderOp.setRenderAborted)
      simp only [applyOps] at h2
      exact lt_of_lt_of_le h1 h2
    · have h2 := ih (applyOp reqNode s b) h
      simp only [applyOps] at h2
      exact h2

/-- C8: starting from a freshly constructed tree render (abort counter 0),
`isRenderAborted` returns true after a sequence of member-function calls
exactly when `setRenderAborted` occurs in the sequence; and from any state
where `isRenderAborted` already returns true, no further sequence of calls
makes it false again — the abort flag is monotonic. -/
theorem aborted_monotone_iff (reqNode : ℕ → ℕ) (s s2 : TreeRenderState)
    (ops ops2 : List TreeRenderOp)
    (h0 : s.aborted = 0) (h2 : isRenderAborted s2 = true) :
    (isRenderAborted (applyOps reqNode s ops) = true ↔
      TreeRenderOp.setRenderAborted ∈ ops) ∧
    isRenderAborted (applyOps reqNode s2 ops2) = true := by
  constructor
  · constructor
    · intro hab
      by_contra hmem
      rw [isRenderAborted, applyOps_aborted_of_not_mem reqNode ops s hmem, h0] at hab
      simp at hab
    · intro hmem
      have := applyOps_aborted_pos_of_mem reqNode ops s hmem
      simp [isRenderAborted, this]
  · have hpos : 0 < s2.aborted := by
      simpa [isRenderAborted] using h2
    have hle := applyOps_aborted_le reqNode ops2 s2
    simp [isRenderAborted]
    exact lt_of_lt_of_le hpos hle

/-- Witness for C8: one `setRenderAborted` call flips the flag, and it
stays set across a later unrelated call. -/
theorem aborted_monotone_iff_witness :
    isRenderAborted (applyOps exampleReqNode exampleTreeState
      [TreeRenderOp.setRenderAborted]) = true ∧
    isRenderAborted (applyOps exampleReqNode (setRenderAborted exampleTreeState)
      [TreeRenderOp.cleanupRenderClones]) = true :=
  ⟨(aborted_monotone_iff exampleReqNode exampleTreeState
      (setRenderAborted exampleTreeState) [TreeRenderOp.setRenderAborted]
      [TreeRenderOp.cleanupRenderClones] rfl (by decide)).1.mpr (by decide),
   (aborted_monotone_iff exampleReqNode exampleTreeState
      (setRenderAborted exampleTreeState) [TreeRenderOp.setRenderAborted]
      [TreeRenderOp.cleanupRenderClones] rfl (by decide)).2⟩

theorem applyOp_stroke_area (reqNode : ℕ → ℕ) (s : TreeRenderState) (op : TreeRenderOp)
    (h : ∀ a, op ≠ TreeRenderOp.setActiveStrokeUpdateArea a) :
    (applyOp reqNode s op).activeStrokeUpdateArea = s.activeStrokeUpdateArea ∧
    (applyOp reqNode s op).activeStrokeUpdateAreaSet = s.activeStrokeUpdateAreaSet := by
  cases op with
  | setResults request status =>
    exact ⟨(setResults_fields reqNode s request status).2.1,
           (setResults_fields reqNode s request status).2.2.1⟩
  | setRenderAborted => exact ⟨rfl, rfl⟩
  | setActiveStrokeUpdateArea a => exact absurd rfl (h a)
  | registerRenderClone holder => exact ⟨rfl, rfl⟩
  | cleanupRenderClones => exact ⟨rfl, rfl⟩

theorem applyOps_stroke_area (reqNode : ℕ → ℕ) :
    ∀ (ops : List TreeRenderOp) (s : TreeRenderState),
      (∀ a, TreeRenderOp.setActiveStrokeUpdateArea a ∉ ops) →
      (applyOps reqNode s ops).activeStrokeUpdateArea = s.activeStrokeUpdateArea ∧
      (applyOps reqNode s ops).activeStrokeUpdateAreaSet = s.activeStrokeUpdateAreaSet := by
  intro ops
  induction ops with
  | nil => intro s _; exact ⟨rfl, rfl⟩
  | cons b t ih =>
    intro s h
    have hb : ∀ a, b ≠ TreeRenderOp.setActiveStrokeUpdateArea a := fun a he =>
      h a (he ▸ List.mem_cons_self b t)
    have h1 := applyOp_stroke_area reqNode s b hb
    have h2 := ih (applyOp reqNode s b) (fun a hm => h a (List.mem_cons_of_mem b hm))
    simp only [applyOps, List.foldl_cons] at h2 ⊢
    exact ⟨h2.1.trans h1.1, h2.2.trans h1.2⟩

/-- C10: from a state where the active-stroke update area was never set,
`getRotoPaintActiveStrokeUpdateArea` returns nothing (the C++ returns
false and leaves its out parameter untouched) as long as
`setActiveStrokeUpdateArea` is never called; and after any call sequence
whose most recent `setActiveStrokeUpdateArea` call set the area `a`, it
returns exactly `a`. -/
theorem active_stroke_update_area_get_set (reqNode : ℕ → ℕ) (s : TreeRenderState)
    (ops pre post : List TreeRenderOp) (a : RectI)
    (h0 : s.activeStrokeUpdateAreaSet = false)
    (hops : ∀ x, TreeRenderOp.setActiveStrokeUpdateArea x ∉ ops)
    (hpost : ∀ x, TreeRenderOp.setActiveStrokeUpdateArea x ∉ post) :
    getRotoPaintActiveStrokeUpdateArea (applyOps reqNode s ops) = none ∧
    getRotoPaintActiveStrokeUpdateArea
      (applyOps reqNode s
        (pre ++ TreeRenderOp.setActiveStrokeUpdateArea a :: post)) = some a := by
  constructor
  · have h := applyOps_stroke_area reqNode ops s hops
    simp [getRotoPaintActiveStrokeUpdateArea, h.2, h0]
  · have h := applyOps_stroke_area reqNode post
      (applyOp reqNode (List.foldl (applyOp reqNode) s pre)
        (TreeRenderOp.setActiveStrokeUpdateArea a)) hpost
    simp only [applyOps, List.foldl_append, List.foldl_cons]
    simp only [applyOps] at h
    simp only [applyOp, setActiveStrokeUpdateArea] at h
    simp [getRotoPaintActiveStrokeUpdateArea, applyOp, setActiveStrokeUpdateArea,
      h.1, h.2]

/-- Witness for C10: nothing is returned before any set; after an
unrelated call followed by one set, exactly the set area is returned. -/
theorem active_stroke_update_area_get_set_witness :
    getRotoPaintActiveStrokeUpdateArea (applyOps exampleReqNode exampleTreeState []) = none ∧
    getRotoPaintActiveStrokeUpdateArea (applyOps exampleReqNode exampleTreeState
      ([TreeRenderOp.setRenderAborted] ++
        TreeRenderOp.setActiveStrokeUpdateArea { x1 := 1, y1 := 2, x2 := 3, y2 := 4 } :: []))
      = some { x1 := 1, y1 := 2, x2 := 3, y2 := 4 } :=
  ⟨(active_stroke_update_area_get_set exampleReqNode exampleTreeState []
      [TreeRenderOp.setRenderAborted] [] { x1 := 1, y1 := 2, x2 := 3, y2 := 4 }
      rfl (by simp) (by simp)).1,
   (active_stroke_update_area_get_set exampleReqNode exampleTreeState []
      [TreeRenderOp.setRenderAborted] [] { x1 := 1, y1 := 2, x2 := 3, y2 := 4 }
      rfl (by simp) (by simp)).2⟩

end Natron

namespace Natron


theorem create_groupInput_no_group_failed (env : NodeGraphEnv) (args : CtorArgs)
    (initThrows : Bool) (hgi : args.treeRootEffect.isGroupInput = true)
    (hg : env.enclosingGroup args.treeRootEffect.node = none) :
    (TreeRender.create env initThrows args).st.state
      = ActionRetCodeEnum.eActionStatusFailed := by
  simp [TreeRender.create, hgi, hg]

theorem create_realInput_none_failed (env : NodeGraphEnv) (args : CtorArgs)
    (initThrows : Bool) (g : ℕ) (hgi : args.treeRootEffect.isGroupInput = true)
    (hg : env.enclosingGroup args.treeRootEffect.node = some g)
    (hri : env.realInputForInput g args.treeRootEffect.node = none) :
    (TreeRender.create env initThrows args).st.state
      = ActionRetCodeEnum.eActionStatusFailed := by
  simp [TreeRender.create, hgi, hg, hri]

theorem create_initThrows_failed (env : NodeGraphEnv) (args : CtorArgs) :
    (TreeRender.create env true args).st.state
      = ActionRetCodeEnum.eActionStatusFailed := by
  by_cases hgi : args.treeRootEffect.isGroupInput = true
  · cases hg : env.enclosingGroup args.treeRootEffect.node with
    | none => simp [TreeRender.create, hgi, hg]
    | some g =>
      cases hri : env.realInputForInput g args.treeRootEffect.node with
      | none => simp [TreeRender.create, hgi, hg, hri]
      | some ri => simp [TreeRender.create, hgi, hg, hri]
  · simp [TreeRender.create, hgi]

theorem create_redirect (env : NodeGraphEnv) (args : CtorArgs) (initThrows : Bool)
    (g ri : ℕ) (hgi : args.treeRootEffect.isGroupInput = true)
    (hg : env.enclosingGroup args.treeRootEffect.node = some g)
    (hri : env.realInputForInput g args.treeRootEffect.node = some ri) :
    (TreeRender.create env initThrows args).ctorArgs =
      { args with treeRootEffect := env.nodeEffect ri } := by
  cases initThrows <;> simp [TreeRender.create, hgi, hg, hri]

theorem createExecutionDataInternal_shortcircuit (isMainExecution : Bool)
    (treeState : ActionRetCodeEnum) (pp rp : Bool) (plan : PlanOracle)
    (h : isFailureRetCode treeState = true) :
    createExecutionDataInternal isMainExecution treeState pp rp plan =
      { freshExecState plan with isMainExecutionOfTree := isMainExecution } := by
  unfold createExecutionDataInternal
  rw [if_pos h]

theorem runPlanningPass_zero_ready (rd : TreeRenderExecutionDataState) (plan : PlanOracle)
    (hq : isFailureRetCode plan.requestStatus = false)
    (hempty : (runPlanningPass rd plan).dependencyFreeRenders = ∅) :
    (runPlanningPass rd plan).status = ActionRetCodeEnum.eActionStatusFailed := by
  by_cases hcard : (plan.tasks.foldl addTaskToRender
      { rd with dependencyFreeRendersCreated := true }).dependencyFreeRenders.card = 0
  · simp [runPlanningPass, hq, hcard]
  · simp [runPlanningPass, hq, hcard] at hempty
    rw [Finset.card_eq_zero] at hcard
    exact absurd hempty hcard

theorem createExecutionDataInternal_zero_ready (isMainExecution : Bool)
    (treeState : ActionRetCodeEnum) (pp rp : Bool) (plan : PlanOracle)
    (hok : isFailureRetCode treeState = false)
    (hp : isFailureRetCode plan.planeStatus = false)
    (hr : isFailureRetCode plan.rodStatus = false)
    (hq : isFailureRetCode plan.requestStatus = false)
    (hempty : (createExecutionDataInternal isMainExecution treeState pp rp
        plan).dependencyFreeRenders = ∅) :
    (createExecutionDataInternal isMainExecution treeState pp rp plan).status
      = ActionRetCodeEnum.eActionStatusFailed := by
  by_cases hpp : pp = true <;> by_cases hrp : rp = true <;>
    (simp only [createExecutionDataInternal, freshExecState, hok, hp, hr, hpp, hrp,
       Bool.false_eq_true, if_true, if_false, ite_true, ite_false] at hempty ⊢
     exact runPlanningPass_zero_ready _ plan hq hempty)

end Natron

namespace Natron

/-- C6 counterexample: a tree render whose creation succeeds (state OK)
although the subsequent planning pass yields zero dependency-free
requests; the zero-ready condition marks the execution data `Failed` but
`create` has already returned with an OK state, so "create returns the
tree render in a Failed state" does not hold for this init-failure
cause. -/
theorem planning_zero_ready_create_ok_cex :
    (TreeRender.create exampleEnvPlain false exampleArgsPlain).st.state
      = ActionRetCodeEnum.eActionStatusOK ∧
    (createMainExecutionData (TreeRender.create exampleEnvPlain false exampleArgsPlain)
        examplePlanNoReady).dependencyFreeRenders = ∅ ∧
    (createMainExecutionData (TreeRender.create exampleEnvPlain false exampleArgsPlain)
        examplePlanNoReady).status = ActionRetCodeEnum.eActionStatusFailed := by
  decide

/-- C6 as amended: a tree render whose init fails — missing enclosing
group or missing real input for a group-input root, or an exception thrown
during init — is returned by `create` in a Failed state, and subsequent
`createMainExecutionData` / `createSubExecutionData` calls short-circuit
to an execution with an empty task set (ready set never created, no task
to execute) without invoking planning; a planning pass that yields zero
dependency-free requests instead marks that execution's own status Failed
after `create` has already returned (it does not change the tree render's
state). -/
theorem init_failure_shortcircuit (env : NodeGraphEnv) (args : CtorArgs)
    (tr : TreeRenderModel) (plan : EffectModel → PlanOracle)
    (subRoot : EffectModel) (pp rp : Bool) (g : ℕ) :
    (args.treeRootEffect.isGroupInput = true →
      env.enclosingGroup args.treeRootEffect.node = none →
      (TreeRender.create env false args).st.state
        = ActionRetCodeEnum.eActionStatusFailed) ∧
    (args.treeRootEffect.isGroupInput = true →
      env.enclosingGroup args.treeRootEffect.node = some g →
      env.realInputForInput g args.treeRootEffect.node = none →
      (TreeRender.create env false args).st.state
        = ActionRetCodeEnum.eActionStatusFailed) ∧
    (TreeRender.create env true args).st.state
      = ActionRetCodeEnum.eActionStatusFailed ∧
    (isFailureRetCode tr.st.state = true →
      (createMainExecutionData tr plan).allRenderTasksToProcess = ∅ ∧
      (createMainExecutionData tr plan).dependencyFreeRendersCreated = false ∧
      hasTasksToExecute (createMainExecutionData tr plan) = false ∧
      (createSubExecutionData tr subRoot pp rp plan).allRenderTasksToProcess = ∅ ∧
      (createSubExecutionData tr subRoot pp rp plan).dependencyFreeRendersCreated
        = false) ∧
    (isFailureRetCode tr.st.state = false →
      isFailureRetCode (plan tr.ctorArgs.treeRootEffect).planeStatus = false →
      isFailureRetCode (plan tr.ctorArgs.treeRootEffect).rodStatus = false →
      isFailureRetCode (plan tr.ctorArgs.treeRootEffect).requestStatus = false →
      (createMainExecutionData tr plan).dependencyFreeRenders = ∅ →
      (createMainExecutionData tr plan).status
        = ActionRetCodeEnum.eActionStatusFailed) := by
  refine ⟨?_, ?_, ?_, ?_, ?_⟩
  · intro hgi hg
    exact create_groupInput_no_group_failed env args false hgi hg
  · intro hgi hg hri
    exact create_realInput_none_failed env args false g hgi hg hri
  · exact create_initThrows_failed env args
  · intro hfail
    have hmain := createExecutionDataInternal_shortcircuit true tr.st.state
      tr.ctorArgs.planeProvided tr.ctorArgs.roiProvided
      (plan tr.ctorArgs.treeRootEffect) hfail
    have hsub := createExecutionDataInternal_shortcircuit false tr.st.state
      pp rp (plan subRoot) hfail
    unfold createMainExecutionData createSubExecutionData
    rw [hmain, hsub]
    exact ⟨rfl, rfl, rfl, rfl, rfl⟩
  · intro hok hp hr hq hempty
    exact createExecutionDataInternal_zero_ready true tr.st.state
      tr.ctorArgs.planeProvided tr.ctorArgs.roiProvided
      (plan tr.ctorArgs.treeRootEffect) hok hp hr hq hempty

/-- Witness for the amended C6: a throwing init yields a failed tree
render, and execution-data creation on it short-circuits to an empty task
set. -/
theorem init_failure_shortcircuit_witness :
    (TreeRender.create exampleEnvPlain true exampleArgsPlain).st.state
      = ActionRetCodeEnum.eActionStatusFailed ∧
    (createMainExecutionData exampleFailedTree
        examplePlanNoReady).allRenderTasksToProcess = ∅ :=
  ⟨(init_failure_shortcircuit exampleEnvPlain exampleArgsPlain exampleFailedTree
      examplePlanNoReady { node := 0, isGroupInput := false } true true 0).2.2.1,
   ((init_failure_shortcircuit exampleEnvPlain exampleArgsPlain exampleFailedTree
      examplePlanNoReady { node := 0, isGroupInput := false } true true 0).2.2.2.1
      (by decide)).1⟩

/-- C7: for a tree render created on a group-input proxy root, a missing
enclosing group or a missing real input makes `create` return a failed
tree render; when the real input exists, the stored constructor arguments
carry the real input's effect as tree root, so planning in
`createMainExecutionData` proceeds with that effect as root. -/
theorem group_input_redirect (env : NodeGraphEnv) (initThrows : Bool) (args : CtorArgs)
    (plan : EffectModel → PlanOracle) (g ri : ℕ)
    (hgi : args.treeRootEffect.isGroupInput = true) :
    (env.enclosingGroup args.treeRootEffect.node = none →
      (TreeRender.create env initThrows args).st.state
        = ActionRetCodeEnum.eActionStatusFailed) ∧
    (env.enclosingGroup args.treeRootEffect.node = some g →
      env.realInputForInput g args.treeRootEffect.node = none →
      (TreeRender.create env initThrows args).st.state
        = ActionRetCodeEnum.eActionStatusFailed) ∧
    (env.enclosingGroup args.treeRootEffect.node = some g →
      env.realInputForInput g args.treeRootEffect.node = some ri →
      (TreeRender.create env initThrows args).ctorArgs.treeRootEffect
          = env.nodeEffect ri ∧
      createMainExecutionData (TreeRender.create env initThrows args) plan =
        createExecutionDataInternal true (TreeRender.create env initThrows args).st.state
          args.planeProvided args.roiProvided (plan (env.nodeEffect ri))) := by
  refine ⟨?_, ?_, ?_⟩
  · intro hg
    exact create_groupInput_no_group_failed env args initThrows hgi hg
  · intro hg hri
    exact create_realInput_none_failed env args initThrows g hgi hg hri
  · intro hg hri
    have hc := create_redirect env args initThrows g ri hgi hg hri
    constructor
    · rw [hc]
    · unfold createMainExecutionData
      rw [hc]

/-- Witness for C7: the group-input root on node 5 is redirected to the
effect of the real input node 9 discovered through group 7. -/
theorem group_input_redirect_witness :
    (TreeRender.create exampleEnvGroup false exampleArgsGroupInput).ctorArgs.treeRootEffect
      = exampleEnvGroup.nodeEffect 9 ∧
    (TreeRender.create exampleEnvGroup false exampleArgsGroupInput).st.state
      = ActionRetCodeEnum.eActionStatusOK :=
  ⟨((group_input_redirect exampleEnvGroup false exampleArgsGroupInput examplePlanNoReady
      7 9 (by decide)).2.2 (by decide) (by decide)).1,
   by decide⟩

end Natron
